import Mathlib

/-!
# Verification of the webb relayer core against its specification

This file shallowly embeds the parts of the webb-tools/relayer sources that
the verified claims are about, and proves (or refutes) each claim over that
embedding.  Machine integers (`u32`, `u64`, `U256`) are modelled as `Nat`;
`U256` division is Euclidean division, exactly as in the source.  Byte
strings are `List Nat` (each entry a byte value).  Fallible code is
modelled with `Except`.
-/

/-! ## Byte encodings

`HistoryStoreKey::to_bytes` (src/src/store/mod.rs) serializes the chain id
with `u128::to_le_bytes`, a 16-byte little-endian encoding.  The proposal
byte layout is fixed-width big-endian fields.  Both widths and orders are
modelled here.
-/

/-- Little-endian fixed-width byte encoding of a natural number
(`u128::to_le_bytes` is `leBytes 16`). -/
def leBytes : Nat → Nat → List Nat
  | 0, _ => []
  | w + 1, n => n % 256 :: leBytes w (n / 256)

/-- Big-endian fixed-width byte encoding of a natural number, used for the
fixed byte layout of proposals. -/
def beBytes : Nat → Nat → List Nat
  | 0, _ => []
  | w + 1, n => beBytes w (n / 256) ++ [n % 256]

theorem leBytes_length (w n : Nat) : (leBytes w n).length = w := by
  induction w generalizing n with
  | zero => rfl
  | succ w ih => simp [leBytes, ih]

theorem beBytes_length (w n : Nat) : (beBytes w n).length = w := by
  induction w generalizing n with
  | zero => rfl
  | succ w ih => simp [beBytes, ih]

theorem leBytes_injective {w n m : Nat} (hn : n < 256 ^ w) (hm : m < 256 ^ w)
    (h : leBytes w n = leBytes w m) : n = m := by
  induction w generalizing n m with
  | zero =>
    simp [Nat.pow_zero, Nat.lt_one_iff] at hn hm
    omega
  | succ w ih =>
    simp only [leBytes, List.cons.injEq] at h
    have hdiv : n / 256 = m / 256 := by
      refine ih ?_ ?_ h.2
      · exact Nat.div_lt_of_lt_mul (by rw [Nat.pow_succ] at hn; omega)
      · exact Nat.div_lt_of_lt_mul (by rw [Nat.pow_succ] at hm; omega)
    omega

theorem beBytes_injective {w n m : Nat} (hn : n < 256 ^ w) (hm : m < 256 ^ w)
    (h : beBytes w n = beBytes w m) : n = m := by
  induction w generalizing n m with
  | zero =>
    simp [Nat.pow_zero, Nat.lt_one_iff] at hn hm
    omega
  | succ w ih =>
    simp only [beBytes] at h
    have hlen : (beBytes w (n / 256)).length = (beBytes w (m / 256)).length := by
      simp [beBytes_length]
    obtain ⟨h1, h2⟩ := List.append_inj h (by simp [beBytes_length])
    have hdiv : n / 256 = m / 256 := by
      refine ih ?_ ?_ h1
      · exact Nat.div_lt_of_lt_mul (by rw [Nat.pow_succ] at hn; omega)
      · exact Nat.div_lt_of_lt_mul (by rw [Nat.pow_succ] at hm; omega)
    simp only [List.cons.injEq] at h2
    omega

/-- Cancel one fixed-width big-endian block at the front of a byte-string
equation.  Used to peel the fields of the proposal layout one by one. -/
theorem beBytes_append_cancel {w a b : Nat} {s t : List Nat}
    (ha : a < 256 ^ w) (hb : b < 256 ^ w)
    (h : beBytes w a ++ s = beBytes w b ++ t) : a = b ∧ s = t := by
  obtain ⟨h1, h2⟩ := List.append_inj h (by simp [beBytes_length])
  exact ⟨beBytes_injective ha hb h1, h2⟩

/-! ## C10 — `HistoryStoreKey::to_bytes` (src/src/store/mod.rs, lines 46-63)

The `Evm` arm writes `chain_id.as_u128().to_le_bytes()` (16 bytes) followed
by the 20 address bytes; the `Substrate` arm writes the same 16-byte chain
id followed by the node name's UTF-8 bytes.  `U256::as_u128` panics (it does
not truncate) when the value exceeds `u128::MAX`, so the encodings below
carry the hypothesis `chainId < 256 ^ 16`. -/

/-- `HistoryStoreKey::to_bytes`, `Evm` arm: 16-byte little-endian chain id
followed by the address bytes. -/
def historyStoreKeyToBytesEvm (chainId : Nat) (address : List Nat) : List Nat :=
  leBytes 16 chainId ++ address

/-- `HistoryStoreKey::to_bytes`, `Substrate` arm: 16-byte little-endian
chain id followed by the node name's UTF-8 bytes. -/
def historyStoreKeyToBytesSubstrate (chainId : Nat) (nodeName : List Nat) : List Nat :=
  leBytes 16 chainId ++ nodeName

/-! ## C1 — leaf cache contiguity

`InMemoryLeafCache::insert_leaves` (src/src/leaf_cache.rs, lines 52-63)
appends the given `(index, commitment)` pairs to the per-contract vector
(`extend_from_slice`, or the batch itself if the key is fresh).

`SubstrateVAnchorLeavesWatcher::handle_event`
(src/src/events_watcher/substrate/vanchor_leaves_watcher.rs, lines 72-86)
reads `next_leaf_index` from chain storage at the event's block, starts at
`next_leaf_index.saturating_sub(leaf_count)` and appends one pair per leaf,
incrementing the index. -/

/-- Per-resource effect of `InMemoryLeafCache::insert_leaves`: append the
batch to the cached list (an absent key behaves as the empty list). -/
def insertLeaves (cache : List (Nat × Nat)) (leaves : List (Nat × Nat)) :
    List (Nat × Nat) :=
  cache ++ leaves

/-- The `for leaf in event.leafs` loop of the substrate leaves handler:
pairs each leaf with a running index starting at `start`. -/
def leafBatch (start : Nat) : List Nat → List (Nat × Nat)
  | [] => []
  | l :: ls => (start, l) :: leafBatch (start + 1) ls

/-- The batch of pairs appended by one `handle_event` invocation: indices
start at `next_leaf_index.saturating_sub(leaf_count)` (`Nat` subtraction is
saturating). -/
def substrateLeavesHandlerBatch (nextLeafIndex : Nat) (leafs : List Nat) :
    List (Nat × Nat) :=
  leafBatch (nextLeafIndex - leafs.length) leafs

/-- The specified leaf-cache invariant: the stored indices are exactly
`[0, 1, …, n-1]` in order. -/
def contiguousFromZero (cache : List (Nat × Nat)) : Prop :=
  cache.map Prod.fst = List.range cache.length

instance (cache : List (Nat × Nat)) : Decidable (contiguousFromZero cache) := by
  unfold contiguousFromZero; infer_instance

theorem leafBatch_length (start : Nat) (ls : List Nat) :
    (leafBatch start ls).length = ls.length := by
  induction ls generalizing start with
  | nil => rfl
  | cons l ls ih => simp [leafBatch, ih]

theorem range_append_leafBatch (n : Nat) (ls : List Nat) :
    List.range n ++ (leafBatch n ls).map Prod.fst = List.range (n + ls.length) := by
  induction ls generalizing n with
  | nil => simp [leafBatch]
  | cons l ls ih =>
    simp only [leafBatch, List.map_cons]
    rw [show List.range n ++ ((n, l).1 :: (leafBatch (n + 1) ls).map Prod.fst) =
        (List.range n ++ [n]) ++ (leafBatch (n + 1) ls).map Prod.fst by simp,
      ← List.range_succ, ih (n + 1)]
    congr 1
    simp only [List.length_cons]
    omega

/-- C1: appending a handler batch whose chain-side `next_leaf_index` agrees
with the cached length preserves contiguity-from-zero. -/
theorem insertLeaves_preserves_contiguity
    (cache : List (Nat × Nat)) (nextLeafIndex : Nat) (leafs : List Nat)
    (hinv : contiguousFromZero cache)
    (hsync : nextLeafIndex = cache.length + leafs.length) :
    contiguousFromZero
      (insertLeaves cache (substrateLeavesHandlerBatch nextLeafIndex leafs)) := by
  unfold contiguousFromZero insertLeaves substrateLeavesHandlerBatch at *
  have hstart : nextLeafIndex - leafs.length = cache.length := by omega
  rw [List.map_append, hinv, hstart, List.length_append, leafBatch_length,
    range_append_leafBatch]

/-! ## Proposals and the mocked (local-signer) backend

`webb_proposals` is an external crate, so the proposal data model follows
the spec's data model section: a proposal header is
`{ resource_id, function_sig: 4 bytes, nonce: u32 }`, a resource id is the
26-byte target system followed by the 6-byte typed chain id, and an anchor
update proposal carries `(src_chain_id, leaf_index, merkle_root,
target_system)` after the header.  Field values are `Nat`s bounded by their
byte widths where a theorem needs it. -/

/-- Modelled from the spec: a 32-byte resource id, 26-byte target system
followed by a 6-byte typed chain id (`webb_proposals::ResourceId` is
external to the sources). -/
structure ResourceId where
  targetSystem : Nat
  typedChainId : Nat
deriving DecidableEq

/-- Modelled from the spec: the proposal header
`{ resource_id, function_sig: 4 bytes, nonce: u32 }`. -/
structure ProposalHeader where
  resourceId : ResourceId
  functionSig : Nat
  nonce : Nat
deriving DecidableEq

/-- Modelled from the spec: an anchor update proposal
`{ header, src_chain_id, leaf_index: u32, merkle_root: 32 bytes,
target_system: 26 bytes }`. -/
structure AnchorUpdateProposal where
  header : ProposalHeader
  srcChainId : Nat
  leafIndex : Nat
  merkleRoot : Nat
  targetSystem : Nat
deriving DecidableEq

/-- Modelled from the spec: the canonical fixed byte layout a proposal
serializes to (`to_vec` of `webb_proposals`), fields in declaration order
at their declared widths. -/
def AnchorUpdateProposal.toVec (p : AnchorUpdateProposal) : List Nat :=
  beBytes 26 p.header.resourceId.targetSystem
    ++ beBytes 6 p.header.resourceId.typedChainId
    ++ beBytes 4 p.header.functionSig
    ++ beBytes 4 p.header.nonce
    ++ beBytes 6 p.srcChainId
    ++ beBytes 4 p.leafIndex
    ++ beBytes 32 p.merkleRoot
    ++ beBytes 26 p.targetSystem

/-- Widths of every field are respected: all eight components are in
range.  This is the well-formedness carried as hypotheses below. -/
def AnchorUpdateProposal.wf (p : AnchorUpdateProposal) : Prop :=
  p.header.resourceId.targetSystem < 256 ^ 26
    ∧ p.header.resourceId.typedChainId < 256 ^ 6
    ∧ p.header.functionSig < 256 ^ 4
    ∧ p.header.nonce < 256 ^ 4
    ∧ p.srcChainId < 256 ^ 6
    ∧ p.leafIndex < 256 ^ 4
    ∧ p.merkleRoot < 256 ^ 32
    ∧ p.targetSystem < 256 ^ 26

instance (p : AnchorUpdateProposal) : Decidable p.wf := by
  unfold AnchorUpdateProposal.wf; infer_instance

/-- The canonical byte layout determines the proposal: `toVec` is injective
on well-formed proposals. -/
theorem AnchorUpdateProposal.toVec_injective
    {p q : AnchorUpdateProposal} (hp : p.wf) (hq : q.wf)
    (h : p.toVec = q.toVec) : p = q := by
  obtain ⟨hp1, hp2, hp3, hp4, hp5, hp6, hp7, hp8⟩ := hp
  obtain ⟨hq1, hq2, hq3, hq4, hq5, hq6, hq7, hq8⟩ := hq
  unfold AnchorUpdateProposal.toVec at h
  simp only [List.append_assoc] at h
  obtain ⟨e1, h⟩ := beBytes_append_cancel hp1 hq1 h
  obtain ⟨e2, h⟩ := beBytes_append_cancel hp2 hq2 h
  obtain ⟨e3, h⟩ := beBytes_append_cancel hp3 hq3 h
  obtain ⟨e4, h⟩ := beBytes_append_cancel hp4 hq4 h
  obtain ⟨e5, h⟩ := beBytes_append_cancel hp5 hq5 h
  obtain ⟨e6, h⟩ := beBytes_append_cancel hp6 hq6 h
  obtain ⟨e7, e8⟩ := beBytes_append_cancel hp7 hq7 h
  have e8' : p.targetSystem = q.targetSystem :=
    beBytes_injective hp8 hq8 e8
  cases p with
  | mk ph ps pl pm pt =>
    cases q with
    | mk qh qs ql qm qt =>
      cases ph with
      | mk prid pf pn =>
        cases qh with
        | mk qrid qf qn =>
          cases prid; cases qrid
          simp_all

/-- `TypedChainId::underlying_chain_id`: the low 4 bytes of the 6-byte
typed chain id. -/
def underlyingChainId (typed : Nat) : Nat := typed % 256 ^ 4

/-- `TypedChainId::Evm(id)`: chain family tag 1 in the two high bytes,
the 32-bit chain id below (`as u32` truncates). -/
def evmTypedChainId (id : Nat) : Nat := 1 * 256 ^ 4 + id % 256 ^ 4

/-- `BridgeKey::new(target_system, dest_chain_id)`
(src/src/proposal_signing_backend/mocked.rs, line 70). -/
structure BridgeKey where
  targetSystem : Nat
  chainId : Nat
deriving DecidableEq

/-- `BridgeCommand` (src/src/store/mod.rs and the spec's data model):
the signed-proposal command carried to the bridge executor. -/
inductive BridgeCommand
  | executeProposalWithSignature (data : List Nat) (signature : List Nat)
deriving DecidableEq

/-- `enqueue_item` on a bridge-command queue: the bridge key names the
queue (`SledQueueKey::from_bridge_key` has no per-item key), so every
command is appended. -/
def enqueueBridgeCommand (k : BridgeKey) (c : BridgeCommand)
    (q : List (BridgeKey × BridgeCommand)) : List (BridgeKey × BridgeCommand) :=
  q ++ [(k, c)]

/-- `MockedProposalSigningBackend::can_handle_proposal`
(src/src/proposal_signing_backend/mocked.rs, lines 46-53): membership of
the proposal header's resource id in the configured
`HashSet<ResourceId>`. -/
def mockedCanHandleProposal (signatureBridges : List ResourceId)
    (p : AnchorUpdateProposal) : Bool :=
  signatureBridges.any (fun rid => rid = p.header.resourceId)

/-- `MockedProposalSigningBackend::can_handle_proposal`
(src/src/events_watcher/proposal_signing_backend/mocked.rs, lines 57-64):
this older variant is configured with a `HashMap<TypedChainId,
TargetSystem>` and tests `contains_key` on the typed chain id of the
proposal's resource id only. -/
def mockedCanHandleProposalByChain
    (signatureBridges : List (Nat × Nat)) (p : AnchorUpdateProposal) : Bool :=
  signatureBridges.any (fun b => b.1 = p.header.resourceId.typedChainId)

/-- The keccak-256 hash computed by `handle_proposal` over the proposal
bytes; keccak itself is a black-box primitive (spec scope), passed in as a
function. -/
def mockedProposalHash (keccak : List Nat → List Nat)
    (p : AnchorUpdateProposal) : List Nat :=
  keccak p.toVec

/-- The ECDSA signature produced by `handle_proposal`: the signer is built
from the private key with the destination chain's underlying id, and signs
the keccak hash.  ECDSA signing is a black-box primitive (deterministic
RFC-6979 signing in the source), passed in as a function of
`(private key, chain id, hash)`. -/
def mockedProposalSignature (keccak : List Nat → List Nat)
    (sign : Nat → Nat → List Nat → List Nat) (privateKey : Nat)
    (p : AnchorUpdateProposal) : List Nat :=
  sign privateKey (underlyingChainId p.header.resourceId.typedChainId)
    (mockedProposalHash keccak p)

/-- `MockedProposalSigningBackend::handle_proposal`
(src/src/proposal_signing_backend/mocked.rs, lines 55-95): hash the
proposal bytes, sign the hash, and enqueue an
`ExecuteProposalWithSignature` command under the bridge key built from the
resource id's target system and typed chain id. -/
def mockedHandleProposal (keccak : List Nat → List Nat)
    (sign : Nat → Nat → List Nat → List Nat) (privateKey : Nat)
    (q : List (BridgeKey × BridgeCommand)) (p : AnchorUpdateProposal) :
    List (BridgeKey × BridgeCommand) :=
  enqueueBridgeCommand
    ⟨p.header.resourceId.targetSystem, p.header.resourceId.typedChainId⟩
    (.executeProposalWithSignature p.toVec
      (mockedProposalSignature keccak sign privateKey p))
    q

/-- Cancel the fixed-width little-endian chain-id block at the front of a
store-key equation. -/
theorem leBytes_append_cancel {w a b : Nat} {s t : List Nat}
    (ha : a < 256 ^ w) (hb : b < 256 ^ w)
    (h : leBytes w a ++ s = leBytes w b ++ t) : a = b ∧ s = t := by
  obtain ⟨h1, h2⟩ := List.append_inj h (by simp [leBytes_length])
  exact ⟨leBytes_injective ha hb h1, h2⟩

/-- C10: `HistoryStoreKey::to_bytes` is injective on keys of the same
variant.  Two Evm keys with equal serializations agree on chain id and
address, and two Substrate keys with equal serializations agree on chain
id and node name; the chain-id bound reflects that `U256::as_u128` panics
(it never truncates) above `u128::MAX`. -/
theorem historyStoreKey_toBytes_injective
    (c1 c2 : Nat) (a1 a2 n1 n2 : List Nat)
    (h1 : c1 < 256 ^ 16) (h2 : c2 < 256 ^ 16) :
    (historyStoreKeyToBytesEvm c1 a1 = historyStoreKeyToBytesEvm c2 a2 →
      c1 = c2 ∧ a1 = a2)
    ∧ (historyStoreKeyToBytesSubstrate c1 n1 = historyStoreKeyToBytesSubstrate c2 n2 →
      c1 = c2 ∧ n1 = n2) := by
  constructor
  · intro h
    exact leBytes_append_cancel h1 h2 h
  · intro h
    exact leBytes_append_cancel h1 h2 h

theorem historyStoreKey_toBytes_injective_witness :
    ((5 : Nat) = 5 ∧ ([1, 2, 3] : List Nat) = [1, 2, 3])
    ∧ ((5 : Nat) = 5 ∧ ([7] : List Nat) = [7]) :=
  ⟨(historyStoreKey_toBytes_injective 5 5 [1, 2, 3] [1, 2, 3] [7] [7]
      (by norm_num) (by norm_num)).1 rfl,
    (historyStoreKey_toBytes_injective 5 5 [1, 2, 3] [1, 2, 3] [7] [7]
      (by norm_num) (by norm_num)).2 rfl⟩

/-- C7 counterexample: the events-watcher variant of the local signer
(configured with `HashMap<TypedChainId, TargetSystem>`) accepts a proposal
whose resource id is NOT among the configured bridges' resource ids — it
only compares typed chain ids.  Here the single configured bridge is
(typed chain id 1, target system 0), i.e. resource id ⟨0, 1⟩, while the
proposal's resource id is ⟨5, 1⟩. -/
theorem mockedCanHandle_resource_id_counterexample :
    mockedCanHandleProposalByChain [(1, 0)]
      { header := { resourceId := ⟨5, 1⟩, functionSig := 0, nonce := 0 },
        srcChainId := 0, leafIndex := 0, merkleRoot := 0, targetSystem := 5 } = true
    ∧ (⟨5, 1⟩ : ResourceId) ∉ [(⟨0, 1⟩ : ResourceId)] := by
  decide

/-- C7 (amended): the `HashSet<ResourceId>`-configured local signer
(src/src/proposal_signing_backend/mocked.rs) accepts exactly the proposals
whose resource id is in the configured set, while the
`HashMap<TypedChainId, _>`-configured variant
(src/src/events_watcher/proposal_signing_backend/mocked.rs) accepts
exactly the proposals whose resource id's typed chain id is among the
configured chain ids, regardless of target system. -/
theorem mockedCanHandleProposal_iff
    (bridges : List ResourceId) (bridgesByChain : List (Nat × Nat))
    (p : AnchorUpdateProposal) :
    (mockedCanHandleProposal bridges p = true ↔ p.header.resourceId ∈ bridges)
    ∧ (mockedCanHandleProposalByChain bridgesByChain p = true ↔
        p.header.resourceId.typedChainId ∈ bridgesByChain.map Prod.fst) := by
  constructor
  · simp [mockedCanHandleProposal, List.any_eq_true]
  · simp only [mockedCanHandleProposalByChain, List.any_eq_true, List.mem_map,
      decide_eq_true_eq]

/-- C8: the local-signer backend is deterministic — two invocations on
identical proposal bytes with the same configured private key compute the
same keccak hash, produce identical signatures, and enqueue identical
`ExecuteProposalWithSignature` commands under the same bridge queue key
(spelled out in the last conjunct).  `keccak` and `sign` are the black-box
crypto primitives; `sign` is RFC-6979 deterministic ECDSA in the source. -/
theorem mockedHandleProposal_deterministic
    (keccak : List Nat → List Nat) (sign : Nat → Nat → List Nat → List Nat)
    (privateKey : Nat) (q : List (BridgeKey × BridgeCommand))
    (p1 p2 : AnchorUpdateProposal) (hw1 : p1.wf) (hw2 : p2.wf)
    (hbytes : p1.toVec = p2.toVec) :
    mockedProposalHash keccak p1 = mockedProposalHash keccak p2
    ∧ mockedProposalSignature keccak sign privateKey p1 =
        mockedProposalSignature keccak sign privateKey p2
    ∧ mockedHandleProposal keccak sign privateKey q p1 =
        mockedHandleProposal keccak sign privateKey q p2
    ∧ mockedHandleProposal keccak sign privateKey q p1 =
        q ++ [(⟨p1.header.resourceId.targetSystem,
                p1.header.resourceId.typedChainId⟩,
          .executeProposalWithSignature p1.toVec
            (mockedProposalSignature keccak sign privateKey p1))] := by
  have hpq : p1 = p2 := AnchorUpdateProposal.toVec_injective hw1 hw2 hbytes
  subst hpq
  exact ⟨rfl, rfl, rfl, rfl⟩

/-- A concrete well-formed proposal used to instantiate hypotheses. -/
def sampleProposal : AnchorUpdateProposal :=
  { header := { resourceId := ⟨3, 2⟩, functionSig := 9, nonce := 4 },
    srcChainId := 1, leafIndex := 4, merkleRoot := 8, targetSystem := 3 }

theorem mockedHandleProposal_deterministic_witness :
    mockedProposalHash (fun bs => bs) sampleProposal =
      mockedProposalHash (fun bs => bs) sampleProposal :=
  (mockedHandleProposal_deterministic (fun bs => bs) (fun _ _ h => h) 0 []
    sampleProposal sampleProposal (by decide) (by decide) rfl).1

/-! ## C3 — `VAnchorWatcher::handle_event`
(src/src/events_watcher/evm/vanchor_watcher.rs, lines 58-140)

Only `Insertion` events are considered; an even `leaf_index` returns `Ok`
immediately (before any RPC).  For an odd index the handler reads the
source chain id and last merkle root, then for every configured linked
anchor whose destination chain resolves in the relayer config it builds an
`AnchorUpdateProposal` with `nonce = leaf_index` and function signature
bytes `[141, 9, 22, 157]`, and dispatches it to the signing backend when
`can_handle_proposal` says so. -/

/-- A decoded `VAnchorContractEvents` value: the handler only looks at
`InsertionFilter` and ignores every other constructor. -/
inductive VAnchorContractEvent
  | insertion (leafIndex : Nat) (commitment : Nat)
  | other
deriving DecidableEq

/-- One entry of `wrapper.config.linked_anchors`: a destination chain name
and the linked anchor's contract address (modelled as its 26-byte
target-system value, which `TargetSystem::new_contract_address`
produces). -/
structure LinkedAnchorConfig where
  chain : String
  address : Nat
deriving DecidableEq

/-- The `updateEdge` function signature bytes `[141, 9, 22, 157]` as one
4-byte big-endian word. -/
def functionSignatureWord : Nat := ((141 * 256 + 9) * 256 + 22) * 256 + 157

/-- `str::to_lowercase` on the destination chain name, written over the
character list so it reduces on concrete strings. -/
def lowerString (s : String) : String := ⟨s.data.map Char.toLower⟩

/-- The proposal built in the body of the linked-anchor loop (lines
101-120): resource id from the linked anchor's address and the destination
chain, header nonce = `leaf_index`, and the body carrying the source chain
id, leaf index, last root and target system. -/
def vanchorProposalFor (srcChainId root leafIndex destChainId anchorAddress : Nat) :
    AnchorUpdateProposal :=
  { header := { resourceId := ⟨anchorAddress, evmTypedChainId destChainId⟩,
                functionSig := functionSignatureWord,
                nonce := leafIndex },
    srcChainId := evmTypedChainId srcChainId,
    leafIndex := leafIndex,
    merkleRoot := root,
    targetSystem := anchorAddress }

/-- The proposals the handler constructs for one `Insertion` event, given
the relayer's EVM config as an association list from lowercase chain name
to chain id.  An even leaf index constructs nothing (early return); a
linked anchor whose chain name is absent from the config is skipped
(`continue`). -/
def vanchorConstructedProposals (evmConfig : List (String × Nat))
    (linkedAnchors : List LinkedAnchorConfig)
    (srcChainId root leafIndex : Nat) : List AnchorUpdateProposal :=
  if leafIndex % 2 = 0 then []
  else
    linkedAnchors.filterMap fun la =>
      (evmConfig.lookup (lowerString la.chain)).map fun destChainId =>
        vanchorProposalFor srcChainId root leafIndex destChainId la.address

/-- The proposals actually dispatched to the signing backend: those of the
constructed ones that `can_handle_proposal` accepts (the others only log a
warning). -/
def vanchorDispatchedProposals (canHandle : AnchorUpdateProposal → Bool)
    (evmConfig : List (String × Nat)) (linkedAnchors : List LinkedAnchorConfig)
    (srcChainId root leafIndex : Nat) : List AnchorUpdateProposal :=
  (vanchorConstructedProposals evmConfig linkedAnchors srcChainId root leafIndex).filter
    canHandle

/-- `VAnchorWatcher::handle_event` as a whole: non-`Insertion` events
return `Ok` untouched; `Insertion` events return `Ok` after dispatching.
The pure model cannot fail (failures in the source are RPC/store errors). -/
def vanchorHandleEvent (canHandle : AnchorUpdateProposal → Bool)
    (evmConfig : List (String × Nat)) (linkedAnchors : List LinkedAnchorConfig)
    (srcChainId root : Nat) (ev : VAnchorContractEvent) :
    Except String (List AnchorUpdateProposal) :=
  match ev with
  | .other => .ok []
  | .insertion leafIndex _ =>
    .ok (vanchorDispatchedProposals canHandle evmConfig linkedAnchors
      srcChainId root leafIndex)

/-- C3: an even-indexed `Insertion` event succeeds with no proposal
constructed or dispatched; for an odd index every constructed proposal
carries `nonce = leaf_index`, and when every linked anchor's chain
resolves and the backend accepts everything, exactly one proposal per
configured linked anchor is dispatched. -/
theorem vanchor_even_leaf_skips_proposals
    (canHandle : AnchorUpdateProposal → Bool) (evmConfig : List (String × Nat))
    (linkedAnchors : List LinkedAnchorConfig)
    (srcChainId root leafIndex commitment : Nat) :
    (leafIndex % 2 = 0 →
      vanchorConstructedProposals evmConfig linkedAnchors srcChainId root leafIndex = []
      ∧ vanchorHandleEvent canHandle evmConfig linkedAnchors srcChainId root
          (.insertion leafIndex commitment) = .ok [])
    ∧ (∀ p ∈ vanchorConstructedProposals evmConfig linkedAnchors srcChainId root
          leafIndex, p.header.nonce = leafIndex ∧ leafIndex % 2 = 1)
    ∧ (leafIndex % 2 = 1 →
        (∀ la ∈ linkedAnchors, (evmConfig.lookup (lowerString la.chain)).isSome) →
        (∀ p, canHandle p = true) →
        vanchorHandleEvent canHandle evmConfig linkedAnchors srcChainId root
            (.insertion leafIndex commitment) =
          .ok (vanchorConstructedProposals evmConfig linkedAnchors srcChainId root
            leafIndex)
        ∧ (vanchorConstructedProposals evmConfig linkedAnchors srcChainId root
            leafIndex).length = linkedAnchors.length) := by
  refine ⟨?_, ?_, ?_⟩
  · intro heven
    have hc : vanchorConstructedProposals evmConfig linkedAnchors srcChainId root
        leafIndex = [] := by
      simp [vanchorConstructedProposals, heven]
    refine ⟨hc, ?_⟩
    simp [vanchorHandleEvent, vanchorDispatchedProposals, hc]
  · intro p hp
    by_cases heven : leafIndex % 2 = 0
    · simp [vanchorConstructedProposals, heven] at hp
    · have hodd : leafIndex % 2 = 1 := Nat.mod_two_eq_zero_or_one leafIndex
        |>.resolve_left heven
      simp only [vanchorConstructedProposals, heven, if_false,
        List.mem_filterMap, Option.map_eq_some'] at hp
      obtain ⟨la, _, d, _, hpd⟩ := hp
      subst hpd
      exact ⟨rfl, hodd⟩
  · intro hodd hresolve hall
    have hne : ¬ leafIndex % 2 = 0 := by omega
    constructor
    · simp only [vanchorHandleEvent, vanchorDispatchedProposals]
      congr 1
      apply List.filter_eq_self.mpr
      intro p _
      exact hall p
    · simp only [vanchorConstructedProposals, hne, if_false]
      clear hall hne hodd
      induction linkedAnchors with
      | nil => simp
      | cons la las ih =>
        obtain ⟨d, hd⟩ := Option.isSome_iff_exists.mp (hresolve la (by simp))
        have ih' := ih (fun a ha => hresolve a (by simp [ha]))
        simp [List.filterMap_cons, hd, ih']

theorem vanchor_even_leaf_skips_proposals_witness :
    vanchorConstructedProposals [("dest", 7)] [⟨"Dest", 5⟩] 1 99 2 = []
    ∧ (vanchorConstructedProposals [("dest", 7)] [⟨"Dest", 5⟩] 1 99 3).length = 1 :=
  ⟨((vanchor_even_leaf_skips_proposals (fun _ => true) [("dest", 7)] [⟨"Dest", 5⟩]
      1 99 2 0).1 (by decide)).1,
    ((vanchor_even_leaf_skips_proposals (fun _ => true) [("dest", 7)] [⟨"Dest", 5⟩]
      1 99 3 0).2.2 (by decide) (by decide) (fun _ => rfl)).2⟩

/-! ## The persistent transaction queue and its drainer
(src/crates/tx-queue/src/substrate/substrate_tx_queue.rs)

`QueueItem` and `QueueItemState` live in the external `webb-relayer-store`
crate, so they are modelled from the spec's data model:
`{ payload, state, created_at, ttl }` with
`state ∈ { Pending, Processing{step, progress}, Failed{reason},
Finalized }`, expiry when `now − created_at > ttl`, and the 64-byte item
key derived deterministically from the transaction payload (modelled as
the payload itself).  A queue is the ordered list of its items. -/

/-- Modelled from the spec: the queue item state machine's states.
Progress is an exact rational (the source stores small decimal `f32`
constants and never computes with them). -/
inductive QueueItemState
  | pending
  | processing (step : String) (progress : Option ℚ)
  | failed (reason : String)
  | finalized
deriving DecidableEq

/-- Modelled from the spec: a queue item
`{ payload, state, created_at, ttl }`; the item key
(`TransactionQueueItemKey::item_key`, a deterministic hash of the payload)
is modelled as the payload value itself. -/
structure QueueItem where
  payload : Nat
  state : QueueItemState
  createdAt : Nat
  ttl : Nat
deriving DecidableEq

/-- Modelled from the spec: `QueueItem::is_expired` is
`now − created_at > ttl` (`webb-relayer-store` is not under the sources). -/
def QueueItem.isExpired (now : Nat) (it : QueueItem) : Bool :=
  it.ttl < now - it.createdAt

/-- `item.set_state(state)`: replace the state, keep everything else. -/
def QueueItem.setState (s : QueueItemState) (it : QueueItem) : QueueItem :=
  { it with state := s }

/-- `QueueStore::peek_item`: first item of the queue, if any. -/
def peekItem (q : List QueueItem) : Option QueueItem :=
  q.head?

/-- `QueueStore::remove_item`: drop the (unique) item with the given item
key. -/
def removeItem (key : Nat) (q : List QueueItem) : List QueueItem :=
  q.eraseP (fun it => it.payload == key)

/-- `QueueStore::update_item`: apply the mutation to the item with the
given key, in place. -/
def updateItem (key : Nat) (f : QueueItem → QueueItem) (q : List QueueItem) :
    List QueueItem :=
  q.map fun it => if it.payload == key then f it else it

/-- `QueueStore::shift_item_to_end`: remove the item with the given key
and re-enqueue the mutated item at the back, so queue order is
recomputed. -/
def shiftItemToEnd (key : Nat) (f : QueueItem → QueueItem) (q : List QueueItem) :
    List QueueItem :=
  match q.find? (fun it => it.payload == key) with
  | none => q
  | some it => q.eraseP (fun it => it.payload == key) ++ [f it]

/-- What one drainer-loop iteration did with the queue head. -/
inductive DrainAction
  | slept
  | removedExpired (key : Nat)
  | rotatedNonPending (key : Nat)
  | picked (key : Nat)
deriving DecidableEq

/-- One iteration of `SubstrateTxQueue::run`'s loop, up to picking a
pending item (lines 126-180 of
src/crates/tx-queue/src/substrate/substrate_tx_queue.rs): an empty queue
sleeps; an expired head is removed; a non-`Pending` head is shifted to the
end with its state untouched (`|_| Ok(())`); a `Pending` head is marked
`Processing { step: "Item picked, processing", progress: 0.0 }`. -/
def drainerStep (now : Nat) (q : List QueueItem) : DrainAction × List QueueItem :=
  match peekItem q with
  | none => (.slept, q)
  | some item =>
    let key := item.payload
    if item.isExpired now then
      (.removedExpired key, removeItem key q)
    else if item.state ≠ .pending then
      (.rotatedNonPending key, shiftItemToEnd key (fun it => it) q)
    else
      (.picked key,
        updateItem key (QueueItem.setState
          (.processing "Item picked, processing" (some 0))) q)

/-- Iterated drainer steps (queue component only). -/
def drainerRun (now : Nat) : Nat → List QueueItem → List QueueItem
  | 0, q => q
  | n + 1, q => drainerRun now n (drainerStep now q).2

/-- C4: an iteration whose head is expired removes exactly the head,
leaves every other item untouched (no state transition, no dry run, no
submission is reached for it — the action is `removedExpired`, not
`picked`), and the loop goes on (the step is total and returns the
remaining queue). -/
theorem drainer_expired_head_removed
    (now : Nat) (item : QueueItem) (rest : List QueueItem)
    (hexp : item.isExpired now = true) :
    drainerStep now (item :: rest) = (.removedExpired item.payload, rest) := by
  simp [drainerStep, peekItem, removeItem, hexp, List.eraseP_cons]

theorem drainer_expired_head_removed_witness :
    drainerStep 10 [⟨42, .pending, 0, 5⟩, ⟨7, .pending, 9, 5⟩]
      = (.removedExpired 42, [⟨7, .pending, 9, 5⟩]) :=
  drainer_expired_head_removed 10 ⟨42, .pending, 0, 5⟩ [⟨7, .pending, 9, 5⟩]
    (by decide)

/-- C5: an iteration whose (unexpired) head is not `Pending` moves that
item — unchanged, state included — to the back of the queue without
dry-running or submitting it, and a `Pending` item sitting behind a block
of such heads is reached after exactly that many iterations. -/
theorem drainer_nonpending_head_rotated
    (now : Nat) (item : QueueItem) (rest : List QueueItem)
    (hexp : item.isExpired now = false) (hstate : item.state ≠ .pending) :
    drainerStep now (item :: rest) = (.rotatedNonPending item.payload, rest ++ [item])
    ∧ ∀ pre post : List QueueItem, ∀ x : QueueItem,
        (∀ it ∈ pre, it.isExpired now = false ∧ it.state ≠ .pending) →
        peekItem (drainerRun now pre.length (pre ++ x :: post)) = some x := by
  constructor
  · simp [drainerStep, peekItem, hexp, hstate, shiftItemToEnd, List.find?_cons,
      List.eraseP_cons]
  · intro pre
    induction pre with
    | nil => intro post x _; simp [drainerRun, peekItem]
    | cons p pre ih =>
      intro post x hpre
      obtain ⟨hpe, hps⟩ := hpre p (by simp)
      have hstep : drainerStep now (p :: (pre ++ x :: post)) =
          (.rotatedNonPending p.payload, (pre ++ x :: post) ++ [p]) := by
        simp [drainerStep, peekItem, hpe, hps, shiftItemToEnd, List.find?_cons,
          List.eraseP_cons]
      have hrw : pre ++ x :: (post ++ [p]) = (pre ++ x :: post) ++ [p] := by
        simp
      calc peekItem (drainerRun now (p :: pre).length ((p :: pre) ++ x :: post))
          = peekItem (drainerRun now pre.length ((pre ++ x :: post) ++ [p])) := by
            simp [drainerRun, hstep]
        _ = some x := by
            rw [← hrw]
            exact ih (post ++ [p]) x (fun it hit => hpre it (by simp [hit]))

theorem drainer_nonpending_head_rotated_witness :
    drainerStep 0 [⟨1, .failed "boom", 0, 10⟩, ⟨2, .pending, 0, 10⟩]
      = (.rotatedNonPending 1, [⟨2, .pending, 0, 10⟩, ⟨1, .failed "boom", 0, 10⟩])
    ∧ peekItem (drainerRun 0 ([⟨1, .failed "boom", 0, 10⟩] : List QueueItem).length
        ([⟨1, .failed "boom", 0, 10⟩] ++ ⟨2, .pending, 0, 10⟩ :: []))
      = some ⟨2, .pending, 0, 10⟩ :=
  ⟨(drainer_nonpending_head_rotated 0 ⟨1, .failed "boom", 0, 10⟩
      [⟨2, .pending, 0, 10⟩] (by decide) (by decide)).1,
    (drainer_nonpending_head_rotated 0 ⟨1, .failed "boom", 0, 10⟩
      [⟨2, .pending, 0, 10⟩] (by decide) (by decide)).2
      [⟨1, .failed "boom", 0, 10⟩] [] ⟨2, .pending, 0, 10⟩ (by decide)⟩

/-! ## C6 — terminal transaction status handling
(src/crates/tx-queue/src/substrate/substrate_tx_queue.rs, lines 335-531)

After submission the drainer folds the subscription's `TransactionStatus`
events into store updates.  `Future`/`Ready`/`Broadcast`/`InBlock` set
`Processing` with progress 0.5/0.6/0.7/0.8; `Finalized` (lines 463-496)
sets `Processing { step: "Transaction status: Finalized", progress:
Some(1.0) }`, increments both processed counters, and does not remove the
item; the remaining statuses only log. -/

/-- `subxt::tx::TxStatus`, as matched by the drainer. -/
inductive TxStatus
  | future
  | ready
  | broadcast
  | inBlock
  | retracted
  | finalityTimeout
  | finalized
  | usurped
  | dropped
  | invalid
deriving DecidableEq

/-- The two metrics counters the `Finalized` arm increments
(`proposals_processed_tx_queue`, `proposals_processed_substrate_tx_queue`). -/
structure TxQueueCounters where
  processedTxQueue : Nat
  processedSubstrateTxQueue : Nat
deriving DecidableEq

/-- The store/metrics effect of one `TransactionStatus` event on the item
with the given key, exactly as the `match e` arms write it. -/
def handleTxStatus (key : Nat) (s : TxStatus) (q : List QueueItem)
    (c : TxQueueCounters) : List QueueItem × TxQueueCounters :=
  match s with
  | .future =>
    (updateItem key (QueueItem.setState
      (.processing "Transaction status: Future" (some 0.5))) q, c)
  | .ready =>
    (updateItem key (QueueItem.setState
      (.processing "Transaction status: Ready" (some 0.6))) q, c)
  | .broadcast =>
    (updateItem key (QueueItem.setState
      (.processing "Transaction status: Broadcast" (some 0.7))) q, c)
  | .inBlock =>
    (updateItem key (QueueItem.setState
      (.processing "Transaction status: InBlock" (some 0.8))) q, c)
  | .retracted => (q, c)
  | .finalityTimeout => (q, c)
  | .finalized =>
    (updateItem key (QueueItem.setState
      (.processing "Transaction status: Finalized" (some 1))) q,
      { processedTxQueue := c.processedTxQueue + 1,
        processedSubstrateTxQueue := c.processedSubstrateTxQueue + 1 })
  | .usurped => (q, c)
  | .dropped => (q, c)
  | .invalid => (q, c)

/-- C6 counterexample: on terminal success the drainer does NOT advance
the stored state to the `Finalized` variant.  For a concrete single-item
queue the `Finalized` status leaves the item in state
`Processing { step: "Transaction status: Finalized", progress: 1.0 }`,
which differs from `QueueItemState.finalized`. -/
theorem finalized_status_state_counterexample :
    (handleTxStatus 7 .finalized [⟨7, .processing "Transaction submitted on chain.." (some 0.4), 0, 100⟩]
        ⟨0, 0⟩).1
      = [⟨7, .processing "Transaction status: Finalized" (some 1), 0, 100⟩]
    ∧ ∀ it ∈ (handleTxStatus 7 .finalized
        [⟨7, .processing "Transaction submitted on chain.." (some 0.4), 0, 100⟩]
        ⟨0, 0⟩).1, it.state ≠ .finalized := by
  constructor
  · rfl
  · decide

/-- C6 (amended): on terminal success (`Finalized` status) the drainer
sets the stored item's state to
`Processing { step: "Transaction status: Finalized", progress: Some(1.0) }`
— not the `Finalized` state variant — bumps both processed counters by
one, and leaves the item in the store (same keys, nothing removed). -/
theorem finalized_status_updates_item
    (key : Nat) (q : List QueueItem) (c : TxQueueCounters)
    (hmem : key ∈ q.map QueueItem.payload) :
    (handleTxStatus key .finalized q c).1
      = updateItem key (QueueItem.setState
          (.processing "Transaction status: Finalized" (some 1))) q
    ∧ (handleTxStatus key .finalized q c).2
      = ⟨c.processedTxQueue + 1, c.processedSubstrateTxQueue + 1⟩
    ∧ (handleTxStatus key .finalized q c).1.map QueueItem.payload
      = q.map QueueItem.payload
    ∧ ∃ it ∈ (handleTxStatus key .finalized q c).1,
        it.payload = key
        ∧ it.state = .processing "Transaction status: Finalized" (some 1) := by
  have hq : (handleTxStatus key .finalized q c).1
      = updateItem key (QueueItem.setState
          (.processing "Transaction status: Finalized" (some 1))) q := rfl
  refine ⟨rfl, rfl, ?_, ?_⟩
  · rw [hq]
    unfold updateItem
    rw [List.map_map]
    apply List.map_congr_left
    intro it _
    by_cases h : it.payload = key
    · simp [h, QueueItem.setState]
    · simp [h]
  · simp only [List.mem_map] at hmem
    obtain ⟨it, hit, hkey⟩ := hmem
    rw [hq]
    refine ⟨QueueItem.setState
      (.processing "Transaction status: Finalized" (some 1)) it, ?_, ?_, rfl⟩
    · unfold updateItem
      exact List.mem_map.mpr ⟨it, hit, by simp [hkey]⟩
    · simp [QueueItem.setState, hkey]

theorem finalized_status_updates_item_witness :
    (handleTxStatus 9 .finalized [⟨9, .pending, 0, 50⟩] ⟨3, 4⟩).2 = ⟨4, 5⟩ :=
  (finalized_status_updates_item 9 [⟨9, .pending, 0, 50⟩] ⟨3, 4⟩ (by decide)).2.1

theorem insertLeaves_preserves_contiguity_witness :
    contiguousFromZero
      (insertLeaves [(0, 10), (1, 11)] (substrateLeavesHandlerBatch 3 [20])) :=
  insertLeaves_preserves_contiguity [(0, 10), (1, 11)] 3 [20] (by decide)
    (by decide)

/-! ## C9 — `SigningRulesBackend::handle_proposal`
(src/crates/proposal-signing-backends/src/signing_rules.rs, lines 55-108)

The on-chain voting backend builds the
`voteProposal(phase1_job_id, phase1_job_details = vec![1u8; 32],
phase2_job_details = proposal.to_vec())` call, derives the queue item key
from the typed transaction's canonical form
(`TypedTransaction::item_key`, an external deterministic hash — modelled
as an arbitrary function of the transaction), checks `has_item` and
returns `Ok` without enqueueing when the key is already queued. -/

/-- The `voteProposal` typed transaction, determined by the configured
phase-1 job id and the proposal bytes. -/
structure VoteProposalTx where
  phase1JobId : Nat
  phase1JobDetails : List Nat
  phase2JobDetails : List Nat
deriving DecidableEq

/-- The transaction built by `handle_proposal`: dummy phase-1 details
`vec![1u8; 32]`, phase-2 details = the proposal bytes. -/
def buildVoteProposalTx (phase1JobId : Nat) (proposalBytes : List Nat) :
    VoteProposalTx :=
  ⟨phase1JobId, List.replicate 32 1, proposalBytes⟩

/-- `SigningRulesBackend::handle_proposal` acting on the per-chain EVM
transaction queue (a list of `(item key, transaction)` pairs in enqueue
order): skip when `has_item`, else enqueue. -/
def signingRulesHandleProposal (itemKey : VoteProposalTx → Nat)
    (phase1JobId : Nat) (q : List (Nat × VoteProposalTx))
    (proposalBytes : List Nat) : List (Nat × VoteProposalTx) :=
  let tx := buildVoteProposalTx phase1JobId proposalBytes
  let key := itemKey tx
  if q.any (fun e => e.1 == key) then q
  else q ++ [(key, tx)]

/-- C9: the voting backend is idempotent with respect to the queue.  A
second invocation with the same proposal bytes leaves the queue of the
first invocation unchanged, and starting from a queue that does not hold
the derived key, the two invocations leave exactly one item under that
key. -/
theorem signingRulesHandleProposal_idempotent
    (itemKey : VoteProposalTx → Nat) (phase1JobId : Nat)
    (q : List (Nat × VoteProposalTx)) (proposalBytes : List Nat) :
    signingRulesHandleProposal itemKey phase1JobId
        (signingRulesHandleProposal itemKey phase1JobId q proposalBytes)
        proposalBytes
      = signingRulesHandleProposal itemKey phase1JobId q proposalBytes
    ∧ ((q.countP (fun e =>
          e.1 == itemKey (buildVoteProposalTx phase1JobId proposalBytes))) = 0 →
        ((signingRulesHandleProposal itemKey phase1JobId
            (signingRulesHandleProposal itemKey phase1JobId q proposalBytes)
            proposalBytes).countP (fun e =>
          e.1 == itemKey (buildVoteProposalTx phase1JobId proposalBytes))) = 1) := by
  set tx := buildVoteProposalTx phase1JobId proposalBytes with htx
  set key := itemKey tx with hkey
  have hbuild : ∀ q' : List (Nat × VoteProposalTx),
      signingRulesHandleProposal itemKey phase1JobId q' proposalBytes =
        if q'.any (fun e => e.1 == key) then q' else q' ++ [(key, tx)] :=
    fun _ => rfl
  by_cases h : q.any (fun e => e.1 == key) = true
  · have h1 : signingRulesHandleProposal itemKey phase1JobId q proposalBytes = q := by
      rw [hbuild, if_pos h]
    constructor
    · rw [h1]
      exact h1
    · intro hcount
      exfalso
      rw [List.any_eq_true] at h
      obtain ⟨e, he, hek⟩ := h
      have := List.countP_eq_zero.mp hcount e he
      simp_all
  · have hfalse : q.any (fun e => e.1 == key) = false := by
      cases hb : q.any (fun e => e.1 == key) with
      | false => rfl
      | true => exact absurd hb h
    have h1 : signingRulesHandleProposal itemKey phase1JobId q proposalBytes
        = q ++ [(key, tx)] := by
      rw [hbuild, if_neg]
      simp [hfalse]
    have hany2 : (q ++ [(key, tx)]).any (fun e => e.1 == key) = true := by
      simp [List.any_append]
    have h2 : signingRulesHandleProposal itemKey phase1JobId (q ++ [(key, tx)])
        proposalBytes = q ++ [(key, tx)] := by
      rw [hbuild, if_pos hany2]
    constructor
    · rw [h1]
      exact h2
    · intro hcount
      rw [h1, h2]
      rw [List.countP_append, hcount]
      simp [List.countP_cons]

theorem signingRulesHandleProposal_idempotent_witness :
    signingRulesHandleProposal (fun tx => tx.phase1JobId) 5
        (signingRulesHandleProposal (fun tx => tx.phase1JobId) 5 [] [9, 9])
        [9, 9]
      = signingRulesHandleProposal (fun tx => tx.phase1JobId) 5 [] [9, 9]
    ∧ ((signingRulesHandleProposal (fun tx => tx.phase1JobId) 5
          (signingRulesHandleProposal (fun tx => tx.phase1JobId) 5 [] [9, 9])
          [9, 9]).countP (fun e =>
        e.1 == (fun tx => tx.phase1JobId) (buildVoteProposalTx 5 [9, 9]))) = 1 :=
  ⟨(signingRulesHandleProposal_idempotent (fun tx => tx.phase1JobId) 5 [] [9, 9]).1,
    (signingRulesHandleProposal_idempotent (fun tx => tx.phase1JobId) 5 []
      [9, 9]).2 (by decide)⟩

/-! ## C2 — `handle_masp_vanchor_relay_tx`
(src/crates/tx-relay/src/evm/masp_vanchor.rs, lines 33-231)

The validation pipeline, in source order after the chain/contract
configuration is resolved: relayer address must equal the reward address;
`roots.len() % 32 == 0`; `refund ≤ fee_info.max_refund`; and
`fee ≥ estimated_fee / 100 * 96 + wrapped_amount` with `U256` integer
division (lines 162-179).  On the first failing check the function
returns the typed error without touching the queue; when all pass it
enqueues the typed transaction under its item key (lines 186-199).
`TransactionRelayingError` lives in `webb-relayer-utils` (not under the
sources) and is modelled from its constructors used here and the
identical enum in crates/relayer-handler-utils/src/lib.rs; the wrapped
refund amount is computed by `calculate_wrapped_refund_amount` through
`f32` formatting, so it enters the model as an input value. -/

/-- Modelled from usage in masp_vanchor.rs and the enum in
crates/relayer-handler-utils/src/lib.rs: the typed relaying errors. -/
inductive TransactionRelayingError
  | invalidCommand
  | unsupportedChain (chainId : Nat)
  | unsupportedContract (contract : String)
  | invalidRelayerAddress (address : String)
  | invalidMerkleRoots
  | invalidRefundAmount (msg : String)
  | wrappingFeeError (msg : String)
  | transactionQueueError (msg : String)
  | networkConfigurationError (msg : String) (chainId : Nat)
  | clientError (msg : String)
deriving DecidableEq

/-- The validation-relevant parts of an incoming withdrawal command
(`EvmVanchorCommand`): the relayer field of `ext_data`, the byte length of
`proof_data.roots`, the refund and the fee. -/
structure MaspRelayCmd where
  relayer : Nat
  rootsLen : Nat
  refund : Nat
  fee : Nat
deriving DecidableEq

/-- The resolved environment of one invocation: the reward address
(`chain.beneficiary.unwrap_or(wallet.address())`), the oracle's fee info
(`estimated_fee`, `max_refund`), the wrapped refund equivalent computed by
`calculate_wrapped_refund_amount`, and the item key the typed transaction
hashes to. -/
structure MaspRelayEnv where
  rewardAddress : Nat
  estimatedFee : Nat
  maxRefund : Nat
  wrappedAmount : Nat
  txKey : Nat
deriving DecidableEq

/-- `enqueue_item` on the per-chain EVM transaction queue of item keys:
a no-op when the key is already present. -/
def evmEnqueue (key : Nat) (q : List Nat) : List Nat :=
  if q.any (fun k => k == key) then q else q ++ [key]

/-- `handle_masp_vanchor_relay_tx`, from the relayer-address check to the
enqueue, returning the result together with the queue it leaves behind
(every error path returns before any store write). -/
def handleMaspVanchorRelayTx (env : MaspRelayEnv) (cmd : MaspRelayCmd)
    (q : List Nat) : Except TransactionRelayingError Nat × List Nat :=
  if cmd.relayer ≠ env.rewardAddress then
    (.error (.invalidRelayerAddress (toString cmd.relayer)), q)
  else if cmd.rootsLen % 32 ≠ 0 then
    (.error .invalidMerkleRoots, q)
  else if env.maxRefund < cmd.refund then
    (.error (.invalidRefundAmount
      ("User requested a refund which is higher than the maximum of "
        ++ toString env.maxRefund)), q)
  else
    let adjustedFee := env.estimatedFee / 100 * 96
    let expected := adjustedFee + env.wrappedAmount
    if cmd.fee < expected then
      (.error (.invalidRefundAmount
        ("User sent a fee that is too low " ++ toString cmd.fee
          ++ " but expected " ++ toString expected)), q)
    else
      (.ok env.txKey, evmEnqueue env.txKey q)

/-- C2 counterexample: the gate is NOT `fee ≥ 0.96 × estimated_fee +
wrapped_refund_equivalent(refund)`.  With `estimated_fee = 150`,
`fee = 100`, `refund = 0` the source computes `150 / 100 * 96 = 96` by
`U256` integer division, accepts the command and enqueues it, although
`100 < 0.96 × 150 + 0 = 144` (stated over integers as
`100 × 100 < 96 × 150 + 100 × 0`), where the claim demands
`InvalidRefundAmount` and an untouched queue. -/
theorem masp_fee_gate_counterexample :
    (handleMaspVanchorRelayTx ⟨1, 150, 10, 0, 77⟩ ⟨1, 0, 0, 100⟩ []).1 = .ok 77
    ∧ (handleMaspVanchorRelayTx ⟨1, 150, 10, 0, 77⟩ ⟨1, 0, 0, 100⟩ []).2 = [77]
    ∧ 100 * 100 < 96 * 150 + 100 * 0 := by
  refine ⟨rfl, rfl, by norm_num⟩

/-- C2 (amended): the enqueue gate is
`fee ≥ (estimated_fee / 100) * 96 + wrapped_amount` with `U256` integer
division (only ≈0.96 × estimated_fee, exact when `estimated_fee` is a
multiple of 100).  For every command passing the earlier validations
(relayer address, roots length, refund ≤ max refund): a fee below that
bound yields the typed error `InvalidRefundAmount` with the queue exactly
as it was, and a fee at or above it enqueues the transaction under its
item key and succeeds. -/
theorem masp_fee_gate
    (env : MaspRelayEnv) (cmd : MaspRelayCmd) (q : List Nat)
    (haddr : cmd.relayer = env.rewardAddress)
    (hroots : cmd.rootsLen % 32 = 0)
    (hrefund : cmd.refund ≤ env.maxRefund) :
    (cmd.fee < env.estimatedFee / 100 * 96 + env.wrappedAmount →
      handleMaspVanchorRelayTx env cmd q =
        (.error (.invalidRefundAmount
          ("User sent a fee that is too low " ++ toString cmd.fee
            ++ " but expected "
            ++ toString (env.estimatedFee / 100 * 96 + env.wrappedAmount))), q))
    ∧ (env.estimatedFee / 100 * 96 + env.wrappedAmount ≤ cmd.fee →
      handleMaspVanchorRelayTx env cmd q = (.ok env.txKey, evmEnqueue env.txKey q)) := by
  have hnr : ¬ env.maxRefund < cmd.refund := by omega
  constructor
  · intro hlow
    unfold handleMaspVanchorRelayTx
    rw [if_neg (by simp [haddr]), if_neg (by simp [hroots]), if_neg hnr,
      if_pos hlow]
  · intro hok
    unfold handleMaspVanchorRelayTx
    rw [if_neg (by simp [haddr]), if_neg (by simp [hroots]), if_neg hnr,
      if_neg (by omega)]

theorem masp_fee_gate_witness :
    handleMaspVanchorRelayTx ⟨1, 200, 10, 3, 77⟩ ⟨1, 32, 2, 100⟩ [5]
      = (.error (.invalidRefundAmount
          ("User sent a fee that is too low " ++ toString 100
            ++ " but expected " ++ toString (200 / 100 * 96 + 3))), [5]) :=
  (masp_fee_gate ⟨1, 200, 10, 3, 77⟩ ⟨1, 32, 2, 100⟩ [5] rfl (by decide)
    (by decide)).1 (by decide)
